import Mathlib

/-!
Verification of `lane_integrity_checker.py` (silabas-motorai/lane_integrity_checker).

The script classifies GeoJSON lane features into a centerline group and a
border group, then scans each group for endpoint gaps: an endpoint is
*snapped* when it lies within `snap_tol` of another feature's first or last
point, and an unsnapped endpoint is flagged when a type-compatible feature
with a different `way_id` has geometry within `strict_radius`.

Embedding choices:
* Coordinates are exact rationals (`ℚ × ℚ`).  The Python code compares
  Euclidean distances against thresholds; we embed the comparison
  `dist p q < r` as the decidable `0 ≤ r ∧ distSq p q < r^2`, which is
  provably equivalent to `Real.sqrt (distSq p q) < r` (see `distLt_iff`).
* `shapely`'s point-to-LineString distance is the minimum over the
  polyline's segments of the point-to-segment distance; the squared
  point-to-segment distance is computed by the standard clamped-projection
  formula (`segDistSq`), which is an exact rational.
* Python property access `properties.get(k)` yields `None` when absent;
  `str(None).lower() = "none"`.  Properties are modelled as `Option`s and
  `normType` performs the stringify-and-lowercase step.
-/

/-- A 2D coordinate, exact rational embedding of the script's float pairs. -/
abbrev Pt := ℚ × ℚ

/-- One GeoJSON feature as the script reads it: a polyline geometry plus the
optional properties `lane_type`, `area_type`, `way_id`, `road_id`. -/
structure Feature where
  geometry : List Pt
  lane_type : Option String := none
  area_type : Option String := none
  way_id : Option Int := none
  road_id : Option Int := none
deriving DecidableEq, Repr

/-- One output record appended by `check_snapping` (source lines 68–72). -/
structure Issue where
  way_id : Option Int
  road_id : Option Int
  coord : Pt
  type : String
  color : String
deriving DecidableEq, Repr

/-- Character-wise lowercasing (embedding of Python's `str.lower()` on the
ASCII identifiers this program deals in). -/
def lowerStr (s : String) : String := String.mk (s.data.map Char.toLower)

/-- Embedding of `str(f['properties'].get('lane_type')).lower()`:
an absent property stringifies to `"None"`, which lowercases to `"none"`. -/
def normType (f : Feature) : String :=
  match f.lane_type with
  | none => "none"
  | some s => lowerStr s

/-- Squared Euclidean distance between two points. -/
def distSq (p q : Pt) : ℚ :=
  (p.1 - q.1) ^ 2 + (p.2 - q.2) ^ 2

/-- Decidable embedding of `dist p q < r` (strict comparison of the true
Euclidean distance with threshold `r`), via squared distances. -/
def distLt (p q : Pt) (r : ℚ) : Bool :=
  decide (0 ≤ r) && decide (distSq p q < r ^ 2)

/-- Clamp a parameter into `[0, 1]`. -/
def clamp01 (t : ℚ) : ℚ := max 0 (min 1 t)

/-- Projection parameter of `p` onto the line through `a` and `b`. -/
def segParam (p a b : Pt) : ℚ :=
  ((p.1 - a.1) * (b.1 - a.1) + (p.2 - a.2) * (b.2 - a.2)) /
    ((b.1 - a.1) ^ 2 + (b.2 - a.2) ^ 2)

/-- Squared distance from point `p` to the segment `[a, b]`
(clamped-projection formula; this is what `shapely` computes per segment). -/
def segDistSq (p a b : Pt) : ℚ :=
  if (b.1 - a.1) ^ 2 + (b.2 - a.2) ^ 2 = 0 then distSq p a
  else
    distSq p
      (a.1 + clamp01 (segParam p a b) * (b.1 - a.1),
       a.2 + clamp01 (segParam p a b) * (b.2 - a.2))

/-- Squared distance from point `p` to a polyline: the minimum over the
polyline's segments (embedding of `node.distance(shape(ref['geometry']))`,
squared). -/
def geomDistSq (p : Pt) : List Pt → ℚ
  | [] => 0
  | [a] => distSq p a
  | a :: b :: rest => min (segDistSq p a b) (geomDistSq p (b :: rest))

/-- Decidable embedding of `node.distance(geometry) < r`. -/
def geomDistLt (p : Pt) (g : List Pt) (r : ℚ) : Bool :=
  decide (0 ≤ r) && decide (geomDistSq p g < r ^ 2)

/-- `coords[0]` of a geometry (never used on empty geometry by the script). -/
def firstPt (g : List Pt) : Pt := g.headD (0, 0)

/-- `coords[-1]` of a geometry. -/
def lastPt (g : List Pt) : Pt := g.getLastD (0, 0)

/-- The two terminal endpoints scanned for each feature: `for idx in [0, -1]`
(source line 35). -/
def endpoints (f : Feature) : List Pt :=
  [firstPt f.geometry, lastPt f.geometry]

/-- Physical snapping check (source lines 39–46): some feature at an index
`j ≠ i` has its first or last point within `snap_tol` of `node`. -/
def isSnapped (elements : List Feature) (i : Nat) (node : Pt)
    (snap_tol : ℚ) : Bool :=
  elements.enum.any fun jo =>
    decide (jo.1 ≠ i) &&
      (distLt node (firstPt jo.2.geometry) snap_tol ||
       distLt node (lastPt jo.2.geometry) snap_tol)

/-- `leadsWith n h`: `n` occurs at the start of `h`. -/
def leadsWith : List Char → List Char → Bool
  | [], _ => true
  | _ :: _, [] => false
  | a :: as, b :: bs => a = b && leadsWith as bs

/-- `containsSub n h`: `n` occurs contiguously somewhere inside `h`. -/
def containsSub (n : List Char) : List Char → Bool
  | [] => n.isEmpty
  | c :: t => leadsWith n (c :: t) || containsSub n t

/-- `'cycle' in s` (Python substring containment). -/
def containsCycle (s : String) : Bool := containsSub "cycle".toList s.toList

/-- Type compatibility test (source lines 55–61), on normalized type strings. -/
def typeMatch (l_type ref_type : String) : Bool :=
  if l_type = "centerline" && ref_type = "centerline" then true
  else if containsCycle l_type && containsCycle ref_type then true
  else if l_type = "road" && ref_type = "road" then true
  else false

/-- The per-reference condition of the continuity scan (source lines 51–63):
`ref` counts as continuity evidence for feature `f` at `node` iff its
`way_id` differs from `f`'s, its type is compatible, and `node` is within
`strict_radius` of `ref`'s entire geometry. -/
def connEvidence (f : Feature) (node : Pt) (strict_radius : ℚ)
    (ref : Feature) : Bool :=
  decide (ref.way_id ≠ f.way_id) &&
    typeMatch (normType f) (normType ref) &&
    geomDistLt node ref.geometry strict_radius

/-- Continuity check (source lines 50–65): some feature in the group is
continuity evidence for `f` at `node`. -/
def expectedConnection (elements : List Feature) (f : Feature) (node : Pt)
    (strict_radius : ℚ) : Bool :=
  elements.any (connEvidence f node strict_radius)

/-- The issues contributed by one endpoint `node` of the feature `f` sitting
at index `i` of the group (source lines 38–72): nothing when snapped,
one issue when an unsnapped endpoint has an expected connection. -/
def endpointIssues (elements : List Feature) (label color : String)
    (i : Nat) (f : Feature) (node : Pt) (snap_tol strict_radius : ℚ) :
    List Issue :=
  if isSnapped elements i node snap_tol then []
  else if expectedConnection elements f node strict_radius then
    [{ way_id := f.way_id, road_id := f.road_id, coord := node,
       type := label ++ " (" ++ normType f ++ ")", color := color }]
  else []

/-- The issues contributed by one enumerated feature: its first endpoint's
scan followed by its last endpoint's scan (`for idx in [0, -1]`). -/
def featIssues (elements : List Feature) (label color : String)
    (snap_tol strict_radius : ℚ) (p : Nat × Feature) : List Issue :=
  endpointIssues elements label color p.1 p.2 (firstPt p.2.geometry)
      snap_tol strict_radius ++
    endpointIssues elements label color p.1 p.2 (lastPt p.2.geometry)
      snap_tol strict_radius

/-- `check_snapping(elements, label, color)` (source lines 27–72): the flat
list of issues appended while scanning the group in order. -/
def check_snapping (elements : List Feature) (label color : String)
    (snap_tol strict_radius : ℚ) : List Issue :=
  elements.enum.flatMap (featIssues elements label color snap_tol strict_radius)

/-- Centerline classifier (source line 14). -/
def isCenterline (f : Feature) : Bool := normType f = "centerline"

/-- `border_types = ['road', 'cycle', 'road_cycle']` (source line 15). -/
def border_types : List String := ["road", "cycle", "road_cycle"]

/-- The unenclosed test of the border classifier (source line 22):
`a_type is None or str(a_type).lower() in ['null', 'none', '']`. -/
def unenclosed (f : Feature) : Bool :=
  match f.area_type with
  | none => true
  | some a => ["null", "none", ""].contains (lowerStr a)

/-- Border classifier (source lines 17–23). -/
def isBorder (f : Feature) : Bool :=
  border_types.contains (normType f) && unenclosed f

/-- The centerline group, in input order (source line 14). -/
def centerlines (features : List Feature) : List Feature :=
  features.filter isCenterline

/-- The border group, in input order (source lines 17–23). -/
def borders (features : List Feature) : List Feature :=
  features.filter isBorder

/-- `check_lane_integrity` (source lines 10–76): the centerline pass
followed by the border pass. -/
def check_lane_integrity (features : List Feature)
    (snap_tol strict_radius : ℚ) : List Issue :=
  check_snapping (centerlines features) "CENTERLINE_GAP" "magenta"
      snap_tol strict_radius ++
    check_snapping (borders features) "BORDER_GAP" "red"
      snap_tol strict_radius

/-- Errors of the validated detector (spec §7). -/
inductive CheckError where
  | ConfigurationError : CheckError
  | MalformedGeometry : Feature → CheckError
deriving DecidableEq, Repr

/-- Modelled from the spec: the source script performs no input validation;
spec §7 requires a `ConfigurationError` when `snap_tolerance ≥ strict_radius`,
reported before any scan runs, and a `MalformedGeometry` error for a feature
whose geometry has fewer than 2 coordinates, instead of the source's
undefined indexing behavior.  The scan itself is the source's
`check_lane_integrity`. -/
def check_lane_integrity_validated (features : List Feature)
    (snap_tol strict_radius : ℚ) : Except CheckError (List Issue) :=
  if strict_radius ≤ snap_tol then .error .ConfigurationError
  else
    match features.find? (fun f => f.geometry.length < 2) with
    | some f => .error (.MalformedGeometry f)
    | none => .ok (check_lane_integrity features snap_tol strict_radius)

/-- The claim's spec-level substring relation: `n` occurs contiguously
inside `h`. -/
def SubstrOf (n h : List Char) : Prop := ∃ u v, h = u ++ n ++ v

/-- Spec-level snapping predicate, in terms of true (real) Euclidean
distance: some feature at another index has its first or last point at
distance strictly less than `tol` from `node`. -/
def snappedSpec (elements : List Feature) (i : Nat) (node : Pt)
    (tol : ℚ) : Prop :=
  ∃ j, ∃ _ : j < elements.length, j ≠ i ∧
    (Real.sqrt ((distSq node (firstPt elements[j].geometry) : ℚ) : ℝ) <
        (tol : ℝ) ∨
     Real.sqrt ((distSq node (lastPt elements[j].geometry) : ℚ) : ℝ) <
        (tol : ℝ))

/-- Spec-level unresolved-adjacency predicate, in terms of true (real)
Euclidean distance to the whole geometry: some feature of the group with a
different `way_id` is type-compatible and has geometry at distance strictly
less than `r` from `node`. -/
def connectionSpec (elements : List Feature) (f : Feature) (node : Pt)
    (r : ℚ) : Prop :=
  ∃ ref ∈ elements, ref.way_id ≠ f.way_id ∧
    typeMatch (normType f) (normType ref) = true ∧
    Real.sqrt ((geomDistSq node ref.geometry : ℚ) : ℝ) < (r : ℝ)

/-- The issue record emitted for an unresolved endpoint `node` of feature
`f` (source lines 68–72). -/
def gapIssue (f : Feature) (node : Pt) (label color : String) : Issue :=
  { way_id := f.way_id, road_id := f.road_id, coord := node,
    type := label ++ " (" ++ normType f ++ ")", color := color }

/-- A sample centerline feature, used for concrete instantiations. -/
def F1 : Feature :=
  { geometry := [((0 : ℚ), (0 : ℚ)), (1, 0)], lane_type := some "centerline",
    way_id := some 1, road_id := some 10 }

/-- A second sample centerline feature with a different `way_id`. -/
def F2 : Feature :=
  { geometry := [((2 : ℚ), (0 : ℚ)), (3, 0)], lane_type := some "centerline",
    way_id := some 2, road_id := some 20 }

/-- A sample malformed feature: a single-point geometry. -/
def FBad : Feature :=
  { geometry := [((0 : ℚ), (0 : ℚ))], lane_type := some "centerline" }

/-- A sample centerline feature sharing its first point with `F1`'s last
point. -/
def F3 : Feature :=
  { geometry := [((1 : ℚ), (0 : ℚ)), (2, 0)], lane_type := some "centerline",
    way_id := some 3, road_id := some 30 }

/-- A sample centerline feature with an absent `way_id`. -/
def F0 : Feature :=
  { geometry := [((0 : ℚ), (0 : ℚ)), (1, 0)], lane_type := some "centerline" }

/-- A centerline feature ending at the origin, `way_id` absent. -/
def G1 : Feature :=
  { geometry := [((-10 : ℚ), (0 : ℚ)), (0, 0)], lane_type := some "centerline" }

/-- A centerline feature starting one unit right of the origin,
`way_id` absent. -/
def G2 : Feature :=
  { geometry := [((1 : ℚ), (0 : ℚ)), (10, 0)], lane_type := some "centerline" }

/-- `G1` with a `way_id` attached. -/
def G1w : Feature := { G1 with way_id := some 1 }

/-- `G2` with a different `way_id` attached. -/
def G2w : Feature := { G2 with way_id := some 2 }

/-- Erase a feature's `way_id` (used to state that the snapping test never
reads `way_id`). -/
def clearWayId (f : Feature) : Feature := { f with way_id := none }

/-! ### Basic facts about the distance embedding -/

theorem distSq_nonneg (p q : Pt) : 0 ≤ distSq p q := by
  unfold distSq; positivity

theorem distSq_comm (p q : Pt) : distSq p q = distSq q p := by
  unfold distSq; ring

theorem segDistSq_nonneg (p a b : Pt) : 0 ≤ segDistSq p a b := by
  unfold segDistSq
  split
  · exact distSq_nonneg p a
  · exact distSq_nonneg p _

theorem geomDistSq_nonneg (p : Pt) : ∀ g : List Pt, 0 ≤ geomDistSq p g
  | [] => le_refl 0
  | [a] => distSq_nonneg p a
  | a :: b :: rest =>
      le_min (segDistSq_nonneg p a b) (geomDistSq_nonneg p (b :: rest))

/-- A nonnegative rational is below a threshold squared (with the threshold
nonnegative) exactly when its real square root is below the threshold. -/
theorem sqrtLt_char (s r : ℚ) (hs : 0 ≤ s) :
    (0 ≤ r ∧ s < r ^ 2) ↔ Real.sqrt ((s : ℚ) : ℝ) < (r : ℝ) := by
  constructor
  · rintro ⟨hr, hlt⟩
    rcases eq_or_lt_of_le hr with h0 | h0
    · exfalso
      rw [← h0] at hlt
      simp at hlt
      exact absurd (lt_of_le_of_lt hs hlt) (lt_irrefl 0)
    · have hr' : (0 : ℝ) < (r : ℝ) := by exact_mod_cast h0
      have hlt' : ((s : ℚ) : ℝ) < (r : ℝ) ^ 2 := by exact_mod_cast hlt
      exact (Real.sqrt_lt' hr').mpr hlt'
  · intro h
    have hr' : (0 : ℝ) < (r : ℝ) :=
      lt_of_le_of_lt (Real.sqrt_nonneg _) h
    have hr : 0 < r := by exact_mod_cast hr'
    have hlt' : ((s : ℚ) : ℝ) < (r : ℝ) ^ 2 := (Real.sqrt_lt' hr').mp h
    exact ⟨le_of_lt hr, by exact_mod_cast hlt'⟩

/-- The boolean `distLt` decides the real Euclidean-distance comparison. -/
theorem distLt_iff (p q : Pt) (r : ℚ) :
    distLt p q r = true ↔
      Real.sqrt ((distSq p q : ℚ) : ℝ) < (r : ℝ) := by
  unfold distLt
  rw [Bool.and_eq_true, decide_eq_true_eq, decide_eq_true_eq]
  exact sqrtLt_char (distSq p q) r (distSq_nonneg p q)

/-- The boolean `geomDistLt` decides the real point-to-geometry distance
comparison. -/
theorem geomDistLt_iff (p : Pt) (g : List Pt) (r : ℚ) :
    geomDistLt p g r = true ↔
      Real.sqrt ((geomDistSq p g : ℚ) : ℝ) < (r : ℝ) := by
  unfold geomDistLt
  rw [Bool.and_eq_true, decide_eq_true_eq, decide_eq_true_eq]
  exact sqrtLt_char (geomDistSq p g) r (geomDistSq_nonneg p g)

/-- The clamped-projection distance to a segment never exceeds the distance
to the segment's first endpoint. -/
theorem segDistSq_le_left (p a b : Pt) : segDistSq p a b ≤ distSq p a := by
  unfold segDistSq
  split
  · exact le_refl _
  · rename_i hne
    have hl : 0 < (b.1 - a.1) ^ 2 + (b.2 - a.2) ^ 2 :=
      lt_of_le_of_ne (by positivity) (Ne.symm hne)
    rcases le_or_lt (segParam p a b) 0 with h1 | h1
    · have hc : clamp01 (segParam p a b) = 0 := by
        unfold clamp01
        rw [min_eq_right (le_trans h1 zero_le_one), max_eq_left h1]
      rw [hc]
      unfold distSq
      ring_nf
      exact le_refl _
    · have hdot : segParam p a b *
          ((b.1 - a.1) ^ 2 + (b.2 - a.2) ^ 2) =
          (p.1 - a.1) * (b.1 - a.1) + (p.2 - a.2) * (b.2 - a.2) := by
        unfold segParam
        field_simp
      rcases le_or_lt 1 (segParam p a b) with h2 | h2
      · have hc : clamp01 (segParam p a b) = 1 := by
          unfold clamp01
          rw [min_eq_left h2, max_eq_right zero_le_one]
        rw [hc]
        unfold distSq
        dsimp only
        nlinarith [hdot, hl, mul_le_mul_of_nonneg_right h2 (le_of_lt hl)]
      · have hc : clamp01 (segParam p a b) = segParam p a b := by
          unfold clamp01
          rw [min_eq_right (le_of_lt h2), max_eq_right (le_of_lt h1)]
        rw [hc]
        have hdot2 : segParam p a b * (segParam p a b *
            ((b.1 - a.1) ^ 2 + (b.2 - a.2) ^ 2)) =
            segParam p a b *
              ((p.1 - a.1) * (b.1 - a.1) + (p.2 - a.2) * (b.2 - a.2)) := by
          rw [hdot]
        unfold distSq
        dsimp only
        nlinarith [hdot2, hl, h1, mul_pos (mul_pos h1 h1) hl]

/-- The distance to a nonempty polyline never exceeds the distance to its
first vertex. -/
theorem geomDistSq_le_first (p : Pt) :
    ∀ g : List Pt, g ≠ [] → geomDistSq p g ≤ distSq p (firstPt g)
  | [], h => absurd rfl h
  | [a], _ => le_of_eq rfl
  | a :: b :: rest, _ =>
      le_trans (min_le_left _ _) (segDistSq_le_left p a b)

/-- The distance to a nonempty polyline never exceeds the distance to its
last vertex. -/
theorem geomDistSq_le_last (p : Pt) :
    ∀ g : List Pt, g ≠ [] → geomDistSq p g ≤ distSq p (lastPt g)
  | [], h => absurd rfl h
  | [a], _ => le_of_eq rfl
  | a :: b :: rest, _ => by
      have ih := geomDistSq_le_last p (b :: rest) (by simp)
      have hlast : lastPt ((a :: b :: rest) : List Pt) = lastPt (b :: rest) := by
        unfold lastPt
        simp [List.getLastD]
      rw [hlast]
      exact le_trans (min_le_right _ _) ih

/-! ### Substring containment -/

theorem leadsWith_iff : ∀ n h : List Char,
    leadsWith n h = true ↔ ∃ t, h = n ++ t
  | [], h => by simp [leadsWith]
  | a :: as, [] => by simp [leadsWith]
  | a :: as, b :: bs => by
      rw [leadsWith]
      simp only [Bool.and_eq_true, decide_eq_true_eq, leadsWith_iff as bs]
      constructor
      · rintro ⟨rfl, t, rfl⟩
        exact ⟨t, rfl⟩
      · rintro ⟨t, ht⟩
        rw [List.cons_append] at ht
        injection ht with h1 h2
        exact ⟨h1.symm, t, h2⟩

theorem containsSub_iff : ∀ (n h : List Char),
    containsSub n h = true ↔ SubstrOf n h
  | n, [] => by
      rw [containsSub]
      unfold SubstrOf
      simp [List.isEmpty_iff, eq_comm (a := ([] : List Char)), List.append_eq_nil]
  | n, c :: t => by
      rw [containsSub]
      simp only [Bool.or_eq_true, leadsWith_iff, containsSub_iff n t]
      constructor
      · rintro (⟨v, hv⟩ | ⟨u, v, hv⟩)
        · exact ⟨[], v, by simpa using hv⟩
        · exact ⟨c :: u, v, by simp [hv]⟩
      · rintro ⟨u, v, hv⟩
        cases u with
        | nil => exact Or.inl ⟨v, by simpa using hv⟩
        | cons x u =>
            rw [List.cons_append, List.cons_append] at hv
            injection hv with h1 h2
            exact Or.inr ⟨u, v, h2⟩

/-! ### Characterizations of the scan's boolean tests -/

/-- The snapping scan succeeds exactly when some feature at another index
has a terminal point within `snap_tol` of `node`. -/
theorem isSnapped_iff (elements : List Feature) (i : Nat) (node : Pt)
    (tol : ℚ) :
    isSnapped elements i node tol = true ↔
      ∃ j, ∃ _ : j < elements.length, j ≠ i ∧
        (distLt node (firstPt elements[j].geometry) tol = true ∨
         distLt node (lastPt elements[j].geometry) tol = true) := by
  unfold isSnapped
  rw [List.any_eq_true]
  constructor
  · rintro ⟨⟨j, g⟩, hmem, hp⟩
    rw [List.mk_mem_enum_iff_getElem?] at hmem
    have hj : j < elements.length := by
      by_contra hlt
      rw [List.getElem?_eq_none (le_of_not_lt hlt)] at hmem
      exact Option.noConfusion hmem
    have hg : elements[j] = g := by
      have := List.getElem?_eq_getElem hj
      rw [this] at hmem
      exact Option.some.inj hmem
    simp only [Bool.and_eq_true, decide_eq_true_eq, Bool.or_eq_true] at hp
    exact ⟨j, hj, hp.1, by rw [hg]; exact hp.2⟩
  · rintro ⟨j, hj, hne, hd⟩
    refine ⟨(j, elements[j]), ?_, ?_⟩
    · rw [List.mk_mem_enum_iff_getElem?]
      exact List.getElem?_eq_getElem hj
    · simp only [Bool.and_eq_true, decide_eq_true_eq, Bool.or_eq_true]
      exact ⟨hne, hd⟩

/-- The continuity scan succeeds exactly when some feature of the group is
continuity evidence. -/
theorem expectedConnection_iff (elements : List Feature) (f : Feature)
    (node : Pt) (r : ℚ) :
    expectedConnection elements f node r = true ↔
      ∃ ref ∈ elements, ref.way_id ≠ f.way_id ∧
        typeMatch (normType f) (normType ref) = true ∧
        geomDistLt node ref.geometry r = true := by
  unfold expectedConnection connEvidence
  rw [List.any_eq_true]
  simp only [Bool.and_eq_true, decide_eq_true_eq, and_assoc]

/-! ### Claim C1: the per-endpoint gap rule -/

/-- C1: For a feature `f` at index `i` of a group and an endpoint `node` of
`f`: `node` is snapped iff some feature at another index has a first or
last point at Euclidean distance strictly below `snap_tol`, and a snapped
endpoint emits no issue; an unsnapped endpoint emits exactly the issue
carrying `f`'s `way_id`, `road_id`, the endpoint's coordinate, the group
label qualified by `f`'s lane type, and the group color, iff some feature
with a different `way_id` is type-compatible and has geometry at Euclidean
distance strictly below `strict_radius`; otherwise it emits nothing. -/
theorem endpoint_gap_rule (elements : List Feature) (label color : String)
    (tol r : ℚ) (i : Nat) (f : Feature) (hf : elements[i]? = some f)
    (node : Pt) (hnode : node ∈ endpoints f) :
    (isSnapped elements i node tol = true ↔ snappedSpec elements i node tol)
    ∧ (isSnapped elements i node tol = true →
        endpointIssues elements label color i f node tol r = [])
    ∧ (isSnapped elements i node tol = false →
        (connectionSpec elements f node r →
          endpointIssues elements label color i f node tol r =
            [gapIssue f node label color])
        ∧ (¬ connectionSpec elements f node r →
          endpointIssues elements label color i f node tol r = [])) := by
  refine ⟨?_, ?_, ?_⟩
  · rw [isSnapped_iff]
    unfold snappedSpec
    simp only [distLt_iff]
  · intro h
    simp [endpointIssues, h]
  · intro h
    have hconn : expectedConnection elements f node r = true ↔
        connectionSpec elements f node r := by
      rw [expectedConnection_iff]
      unfold connectionSpec
      simp only [geomDistLt_iff]
    constructor
    · intro hc
      simp [endpointIssues, h, hconn.mpr hc, gapIssue]
    · intro hc
      have hfalse : expectedConnection elements f node r = false := by
        rw [Bool.eq_false_iff]
        intro hx
        exact hc (hconn.mp hx)
      simp [endpointIssues, h, hfalse]

/-- Concrete instantiation of `endpoint_gap_rule` at the first endpoint of
`F1` in the group `[F1, F2]`. -/
theorem endpoint_gap_rule_inst :
    (isSnapped [F1, F2] 0 ((0 : ℚ), (0 : ℚ)) (1/10) = true ↔
      snappedSpec [F1, F2] 0 ((0 : ℚ), (0 : ℚ)) (1/10))
    ∧ (isSnapped [F1, F2] 0 ((0 : ℚ), (0 : ℚ)) (1/10) = true →
        endpointIssues [F1, F2] "CENTERLINE_GAP" "magenta" 0 F1
          ((0 : ℚ), (0 : ℚ)) (1/10) 2 = [])
    ∧ (isSnapped [F1, F2] 0 ((0 : ℚ), (0 : ℚ)) (1/10) = false →
        (connectionSpec [F1, F2] F1 ((0 : ℚ), (0 : ℚ)) 2 →
          endpointIssues [F1, F2] "CENTERLINE_GAP" "magenta" 0 F1
            ((0 : ℚ), (0 : ℚ)) (1/10) 2 =
            [gapIssue F1 ((0 : ℚ), (0 : ℚ)) "CENTERLINE_GAP" "magenta"])
        ∧ (¬ connectionSpec [F1, F2] F1 ((0 : ℚ), (0 : ℚ)) 2 →
          endpointIssues [F1, F2] "CENTERLINE_GAP" "magenta" 0 F1
            ((0 : ℚ), (0 : ℚ)) (1/10) 2 = [])) :=
  endpoint_gap_rule [F1, F2] "CENTERLINE_GAP" "magenta" (1/10) 2 0 F1 rfl
    ((0 : ℚ), (0 : ℚ)) (by decide)

/-! ### Claim C4: the classifier -/

/-- C4: A feature lands in the centerline group iff its normalized
(lower-cased, stringified) lane type equals `"centerline"`, and in the
border group iff that normalized type is one of `road`, `cycle`,
`road_cycle` and its `area_type` is absent or lowercases to one of
`"null"`, `"none"`, `""`; both groups preserve input order (they are
sublists of the input). -/
theorem classifier_rule (features : List Feature) :
    (centerlines features).Sublist features ∧
    (borders features).Sublist features ∧
    (∀ f, f ∈ centerlines features ↔
      f ∈ features ∧ normType f = "centerline") ∧
    (∀ f, f ∈ borders features ↔
      f ∈ features ∧
        (normType f = "road" ∨ normType f = "cycle" ∨
          normType f = "road_cycle") ∧
        (f.area_type = none ∨ ∃ a, f.area_type = some a ∧
          (lowerStr a = "null" ∨ lowerStr a = "none" ∨ lowerStr a = ""))) := by
  refine ⟨List.filter_sublist _, List.filter_sublist _, ?_, ?_⟩
  · intro f
    rw [centerlines, List.mem_filter]
    simp [isCenterline]
  · intro f
    rw [borders, List.mem_filter]
    have hiff : isBorder f = true ↔
        (normType f = "road" ∨ normType f = "cycle" ∨
          normType f = "road_cycle") ∧
        (f.area_type = none ∨ ∃ a, f.area_type = some a ∧
          (lowerStr a = "null" ∨ lowerStr a = "none" ∨ lowerStr a = "")) := by
      unfold isBorder border_types unenclosed
      cases harea : f.area_type with
      | none => simp
      | some a => simp
    rw [hiff]

/-! ### Claim C5: type compatibility -/

/-- C5: Two normalized lane-type strings are compatible iff both equal
`"centerline"`, or both contain the substring `"cycle"`, or both equal
`"road"` exactly; in particular `"road_cycle"` is compatible with
`"cycle"` and `"road_cycle"` but not with `"road"`. -/
theorem typeMatch_rule :
    (∀ s t : String, typeMatch s t = true ↔
      (s = "centerline" ∧ t = "centerline") ∨
      (SubstrOf "cycle".toList s.toList ∧ SubstrOf "cycle".toList t.toList) ∨
      (s = "road" ∧ t = "road")) ∧
    typeMatch "road_cycle" "cycle" = true ∧
    typeMatch "road_cycle" "road_cycle" = true ∧
    typeMatch "road_cycle" "road" = false := by
  refine ⟨?_, by decide, by decide, by decide⟩
  intro s t
  constructor
  · intro h
    unfold typeMatch at h
    split at h
    · rename_i hA
      left
      simpa using hA
    · split at h
      · rename_i hB
        right; left
        rw [Bool.and_eq_true] at hB
        unfold containsCycle at hB
        exact ⟨(containsSub_iff _ _).mp hB.1, (containsSub_iff _ _).mp hB.2⟩
      · split at h
        · rename_i hC
          right; right
          simpa using hC
        · simp at h
  · intro h
    rcases h with ⟨hs, ht⟩ | ⟨hs, ht⟩ | ⟨hs, ht⟩
    · subst hs; subst ht; decide
    · have hs' : containsCycle s = true := (containsSub_iff _ _).mpr hs
      have ht' : containsCycle t = true := (containsSub_iff _ _).mpr ht
      unfold typeMatch
      rw [hs', ht']
      split
      · rfl
      · rfl
    · subst hs; subst ht; decide

/-! ### Claims C2 and C3: validated-detector error handling -/

/-- C3: Whenever `snap_tol ≥ strict_radius`, the validated detector reports
a `ConfigurationError` before any scan runs, for every input feature set. -/
theorem config_error_rule (features : List Feature)
    (snap_tol strict_radius : ℚ) (h : snap_tol ≥ strict_radius) :
    check_lane_integrity_validated features snap_tol strict_radius =
      Except.error CheckError.ConfigurationError := by
  unfold check_lane_integrity_validated
  rw [if_pos h]

/-- Concrete instantiation of `config_error_rule`. -/
theorem config_error_rule_inst :
    check_lane_integrity_validated [F1] 1 1 =
      Except.error CheckError.ConfigurationError :=
  config_error_rule [F1] 1 1 (le_refl 1)

/-- C2: On a valid configuration, an input containing a feature with fewer
than 2 coordinates makes the validated detector fail with a
`MalformedGeometry` error naming such a feature, and it produces no Issue
list. -/
theorem malformed_geometry_rule (features : List Feature)
    (snap_tol strict_radius : ℚ) (hcfg : snap_tol < strict_radius)
    (f : Feature) (hmem : f ∈ features) (hlen : f.geometry.length < 2) :
    (∃ g ∈ features, g.geometry.length < 2 ∧
      check_lane_integrity_validated features snap_tol strict_radius =
        Except.error (CheckError.MalformedGeometry g)) ∧
    ∀ issues, check_lane_integrity_validated features snap_tol strict_radius ≠
      Except.ok issues := by
  have hmain : ∃ g ∈ features, g.geometry.length < 2 ∧
      check_lane_integrity_validated features snap_tol strict_radius =
        Except.error (CheckError.MalformedGeometry g) := by
    unfold check_lane_integrity_validated
    rw [if_neg (not_le.mpr hcfg)]
    cases hfind : features.find? (fun f => decide (f.geometry.length < 2)) with
    | none =>
        rw [List.find?_eq_none] at hfind
        exact absurd (by simpa using hlen) (by simpa using hfind f hmem)
    | some g =>
        refine ⟨g, List.mem_of_find?_eq_some hfind, ?_, ?_⟩
        · simpa using List.find?_some hfind
        · simp
  refine ⟨hmain, ?_⟩
  rcases hmain with ⟨g, _, _, heq⟩
  intro issues
  rw [heq]
  intro hcontra
  exact Except.noConfusion hcontra

/-- Concrete instantiation of `malformed_geometry_rule` on a single-point
feature. -/
theorem malformed_geometry_rule_inst :
    (∃ g ∈ [FBad], g.geometry.length < 2 ∧
      check_lane_integrity_validated [FBad] 1 2 =
        Except.error (CheckError.MalformedGeometry g)) ∧
    ∀ issues, check_lane_integrity_validated [FBad] 1 2 ≠
      Except.ok issues :=
  malformed_geometry_rule [FBad] 1 2 (by norm_num) FBad (by decide)
    (by decide)

/-! ### Claim C6: threshold monotonicity -/

theorem geomDistLt_mono (p : Pt) (g : List Pt) {r1 r2 : ℚ} (h : r1 ≤ r2)
    (hr : geomDistLt p g r1 = true) : geomDistLt p g r2 = true := by
  unfold geomDistLt at hr ⊢
  simp only [Bool.and_eq_true, decide_eq_true_eq] at hr ⊢
  exact ⟨le_trans hr.1 h,
    lt_of_lt_of_le hr.2 (pow_le_pow_left₀ hr.1 h 2)⟩

theorem expectedConnection_mono (elements : List Feature) (f : Feature)
    (node : Pt) {r1 r2 : ℚ} (h : r1 ≤ r2)
    (hc : expectedConnection elements f node r1 = true) :
    expectedConnection elements f node r2 = true := by
  rw [expectedConnection_iff] at hc ⊢
  obtain ⟨ref, hm, hw, ht, hd⟩ := hc
  exact ⟨ref, hm, hw, ht, geomDistLt_mono node ref.geometry h hd⟩

theorem endpointIssues_length_mono (elements : List Feature)
    (label color : String) (i : Nat) (f : Feature) (node : Pt)
    (tol : ℚ) {r1 r2 : ℚ} (h : r1 ≤ r2) :
    (endpointIssues elements label color i f node tol r1).length ≤
      (endpointIssues elements label color i f node tol r2).length := by
  unfold endpointIssues
  cases hs : isSnapped elements i node tol
  · cases hc : expectedConnection elements f node r1
    · simp [hc]
    · have hc2 := expectedConnection_mono elements f node h hc
      simp [hc, hc2]
  · simp

theorem length_flatMap_le {α β : Type} (l : List α) (f g : α → List β)
    (h : ∀ x ∈ l, (f x).length ≤ (g x).length) :
    (l.flatMap f).length ≤ (l.flatMap g).length := by
  induction l with
  | nil => simp
  | cons a t ih =>
      simp only [List.flatMap_cons, List.length_append]
      exact Nat.add_le_add (h a (by simp))
        (ih fun x hx => h x (by simp [hx]))

/-- C6: For a fixed group, labels, and `snap_tol`, increasing
`strict_radius` never decreases the number of reported issues. -/
theorem radius_monotonicity (elements : List Feature) (label color : String)
    (tol : ℚ) (r1 r2 : ℚ) (h : r1 ≤ r2) :
    (check_snapping elements label color tol r1).length ≤
      (check_snapping elements label color tol r2).length := by
  unfold check_snapping
  apply length_flatMap_le
  intro p _
  unfold featIssues
  simp only [List.length_append]
  exact Nat.add_le_add
    (endpointIssues_length_mono elements label color p.1 p.2
      (firstPt p.2.geometry) tol h)
    (endpointIssues_length_mono elements label color p.1 p.2
      (lastPt p.2.geometry) tol h)

/-- Concrete instantiation of `radius_monotonicity`. -/
theorem radius_monotonicity_inst :
    (check_snapping [F1, F2] "CENTERLINE_GAP" "magenta" (1/10) 1).length ≤
      (check_snapping [F1, F2] "CENTERLINE_GAP" "magenta" (1/10) 2).length :=
  radius_monotonicity [F1, F2] "CENTERLINE_GAP" "magenta" (1/10) 1 2
    (by norm_num)

/-! ### Claim C7: symmetry of snapping -/

theorem distLt_comm (p q : Pt) (r : ℚ) : distLt p q r = distLt q p r := by
  unfold distLt
  rw [distSq_comm]

theorem distLt_true_of (p q : Pt) (r : ℚ) (h0 : 0 ≤ r)
    (h : distSq p q < r ^ 2) : distLt p q r = true := by
  unfold distLt
  rw [decide_eq_true h0, decide_eq_true h]
  rfl

theorem distLt_false_of (p q : Pt) (r : ℚ) (h : r ^ 2 ≤ distSq p q) :
    distLt p q r = false := by
  unfold distLt
  rw [decide_eq_false (not_lt.mpr h), Bool.and_false]

/-- C7: If an endpoint `A` of the feature at index `iX` is within
`snap_tol` of an endpoint `B` of the distinct feature at index `iY`, then
neither endpoint's scan reports a gap. -/
theorem snapping_symmetry (elements : List Feature) (label color : String)
    (tol r : ℚ) (iX iY : Nat) (hne : iX ≠ iY)
    (hX : iX < elements.length) (hY : iY < elements.length)
    (A B : Pt) (hA : A ∈ endpoints elements[iX])
    (hB : B ∈ endpoints elements[iY])
    (hsnap : distLt A B tol = true) :
    endpointIssues elements label color iX elements[iX] A tol r = [] ∧
    endpointIssues elements label color iY elements[iY] B tol r = [] := by
  have hsX : isSnapped elements iX A tol = true := by
    rw [isSnapped_iff]
    refine ⟨iY, hY, Ne.symm hne, ?_⟩
    simp only [endpoints, List.mem_cons, List.mem_singleton] at hB
    rcases hB with hB | hB
    · left; rw [← hB]; exact hsnap
    · right
      rcases hB with hB | hB
      · rw [← hB]; exact hsnap
      · exact absurd hB (List.not_mem_nil B)
  have hsY : isSnapped elements iY B tol = true := by
    rw [isSnapped_iff]
    refine ⟨iX, hX, hne, ?_⟩
    rw [distLt_comm] at hsnap
    simp only [endpoints, List.mem_cons, List.mem_singleton] at hA
    rcases hA with hA | hA
    · left; rw [← hA]; exact hsnap
    · right
      rcases hA with hA | hA
      · rw [← hA]; exact hsnap
      · exact absurd hA (List.not_mem_nil A)
  exact ⟨by simp [endpointIssues, hsX], by simp [endpointIssues, hsY]⟩

/-- Concrete instantiation of `snapping_symmetry`: `F1` ends where `F3`
begins. -/
theorem snapping_symmetry_inst :
    endpointIssues [F1, F3] "CENTERLINE_GAP" "magenta" 0
      ([F1, F3] : List Feature)[0] ((1 : ℚ), (0 : ℚ)) (1/10) 1 = [] ∧
    endpointIssues [F1, F3] "CENTERLINE_GAP" "magenta" 1
      ([F1, F3] : List Feature)[1] ((1 : ℚ), (0 : ℚ)) (1/10) 1 = [] :=
  snapping_symmetry [F1, F3] "CENTERLINE_GAP" "magenta" (1/10) 1 0 1
    (by decide) (by decide) (by decide) ((1 : ℚ), (0 : ℚ))
    ((1 : ℚ), (0 : ℚ)) (by decide) (by decide)
    (distLt_true_of ((1 : ℚ), (0 : ℚ)) ((1 : ℚ), (0 : ℚ)) (1/10)
      (by norm_num) (by norm_num [distSq]))

/-! ### Claim C9: output order and per-endpoint uniqueness -/

/-- C9: The output is the centerline pass followed by the border pass; each
pass walks the group in input order and, per feature, the first endpoint's
issues before the last endpoint's; every (feature, endpoint) pair
contributes at most one issue. -/
theorem issue_order_rule (features : List Feature) (tol r : ℚ) :
    check_lane_integrity features tol r =
      ((centerlines features).enum.flatMap fun p =>
          endpointIssues (centerlines features) "CENTERLINE_GAP" "magenta"
              p.1 p.2 (firstPt p.2.geometry) tol r ++
            endpointIssues (centerlines features) "CENTERLINE_GAP" "magenta"
              p.1 p.2 (lastPt p.2.geometry) tol r) ++
        ((borders features).enum.flatMap fun p =>
          endpointIssues (borders features) "BORDER_GAP" "red"
              p.1 p.2 (firstPt p.2.geometry) tol r ++
            endpointIssues (borders features) "BORDER_GAP" "red"
              p.1 p.2 (lastPt p.2.geometry) tol r) ∧
    ∀ (elements : List Feature) (label color : String) (i : Nat)
      (f : Feature) (node : Pt),
      (endpointIssues elements label color i f node tol r).length ≤ 1 := by
  refine ⟨rfl, ?_⟩
  intro elements label color i f node
  unfold endpointIssues
  split
  · simp
  · split <;> simp

/-! ### Claim C10: absent way_id and the two scans -/

/-- C10: For a feature with an absent `way_id`, no feature whose `way_id`
is also absent (whatever its geometry) is ever continuity evidence, because
the continuity scan excludes by `way_id` equality and two absent `way_id`s
compare equal; any expected connection must come from a feature with a
present `way_id`.  The snapping test, which excludes only by index, is
entirely insensitive to `way_id`. -/
theorem absent_way_id_rule (elements : List Feature) (f : Feature)
    (node : Pt) (r : ℚ) (hf : f.way_id = none) :
    (∀ ref : Feature, ref.way_id = none →
      connEvidence f node r ref = false) ∧
    (expectedConnection elements f node r = true →
      ∃ ref ∈ elements, ref.way_id ≠ none ∧
        connEvidence f node r ref = true) ∧
    (∀ (els : List Feature) (i : Nat) (tol : ℚ),
      isSnapped (els.map clearWayId) i node tol =
        isSnapped els i node tol) := by
  have h1 : ∀ ref : Feature, ref.way_id = none →
      connEvidence f node r ref = false := by
    intro ref h
    unfold connEvidence
    rw [hf, h]
    simp
  refine ⟨h1, ?_, ?_⟩
  · intro h
    unfold expectedConnection at h
    rw [List.any_eq_true] at h
    obtain ⟨ref, hm, hp⟩ := h
    refine ⟨ref, hm, ?_, hp⟩
    intro hnone
    rw [h1 ref hnone] at hp
    exact Bool.noConfusion hp
  · intro els i tol
    unfold isSnapped
    rw [List.enum_map, List.any_map]
    rfl

/-- Concrete instantiation of `absent_way_id_rule` for a way-id-less
feature in a group. -/
theorem absent_way_id_rule_inst :
    (∀ ref : Feature, ref.way_id = none →
      connEvidence F0 ((0 : ℚ), (0 : ℚ)) 1 ref = false) ∧
    (expectedConnection [F0] F0 ((0 : ℚ), (0 : ℚ)) 1 = true →
      ∃ ref ∈ [F0], ref.way_id ≠ none ∧
        connEvidence F0 ((0 : ℚ), (0 : ℚ)) 1 ref = true) ∧
    (∀ (els : List Feature) (i : Nat) (tol : ℚ),
      isSnapped (els.map clearWayId) i ((0 : ℚ), (0 : ℚ)) tol =
        isSnapped els i ((0 : ℚ), (0 : ℚ)) tol) :=
  absent_way_id_rule [F0] F0 ((0 : ℚ), (0 : ℚ)) 1 rfl

/-! ### Claim C8: scenario 3 -/

/-- The distance to a feature's geometry never exceeds the distance to
either of its endpoints. -/
theorem geomDistSq_le_endpoint (p q : Pt) (f : Feature)
    (hq : q ∈ endpoints f) : geomDistSq p f.geometry ≤ distSq p q := by
  simp only [endpoints, List.mem_cons, List.not_mem_nil, or_false] at hq
  rcases hq with rfl | rfl
  · cases hg : f.geometry with
    | nil => exact distSq_nonneg p (firstPt [])
    | cons a t => exact geomDistSq_le_first p (a :: t) (by simp)
  · cases hg : f.geometry with
    | nil => exact distSq_nonneg p (lastPt [])
    | cons a t => exact geomDistSq_le_last p (a :: t) (by simp)

/-- When every feature of a group (including the scanned one) has an absent
`way_id`, the continuity scan can never fire, so the group yields no
issues. -/
theorem check_snapping_all_wayid_none (elements : List Feature)
    (label color : String) (tol r : ℚ)
    (h : ∀ f ∈ elements, f.way_id = none) :
    check_snapping elements label color tol r = [] := by
  unfold check_snapping
  rw [List.flatMap_eq_nil_iff]
  intro p hp
  obtain ⟨j, x⟩ := p
  rw [List.mk_mem_enum_iff_getElem?] at hp
  have hx : x ∈ elements := by
    obtain ⟨hlt, rfl⟩ := List.getElem?_eq_some_iff.mp hp
    exact List.getElem_mem hlt
  have hexp : ∀ node, expectedConnection elements x node r = false := by
    intro node
    rw [Bool.eq_false_iff]
    intro hc
    rw [expectedConnection_iff] at hc
    obtain ⟨ref, hm, hw, _, _⟩ := hc
    exact hw (by rw [h ref hm, h x hx])
  have he : ∀ (node : Pt) (i : Nat),
      endpointIssues elements label color i x node tol r = [] := by
    intro node i
    unfold endpointIssues
    split
    · rfl
    · rw [hexp node]
      simp
  unfold featIssues
  rw [he, he]
  rfl

/-- C8 counterexample: `G1` and `G2` are two centerline features whose
nearest endpoints, `(0,0)` and `(1,0)`, lie `0.5 × strict_radius` apart
(with `strict_radius = 2`), no endpoint pair within `snap_tol = 1/10` —
yet the detector reports no issue at all, because both features have an
absent `way_id` and the continuity scan excludes equal `way_id`s. -/
theorem scenario3_as_stated_fails :
    normType G1 = "centerline" ∧ normType G2 = "centerline" ∧
    endpoints G1 = [((-10 : ℚ), (0 : ℚ)), ((0 : ℚ), (0 : ℚ))] ∧
    endpoints G2 = [((1 : ℚ), (0 : ℚ)), ((10 : ℚ), (0 : ℚ))] ∧
    distSq ((0 : ℚ), (0 : ℚ)) ((1 : ℚ), (0 : ℚ)) = ((2 : ℚ) / 2) ^ 2 ∧
    distLt ((-10 : ℚ), (0 : ℚ)) ((1 : ℚ), (0 : ℚ)) (1/10) = false ∧
    distLt ((-10 : ℚ), (0 : ℚ)) ((10 : ℚ), (0 : ℚ)) (1/10) = false ∧
    distLt ((0 : ℚ), (0 : ℚ)) ((1 : ℚ), (0 : ℚ)) (1/10) = false ∧
    distLt ((0 : ℚ), (0 : ℚ)) ((10 : ℚ), (0 : ℚ)) (1/10) = false ∧
    check_snapping [G1, G2] "CENTERLINE_GAP" "magenta" (1/10) 2 = [] := by
  refine ⟨by decide, by decide, by decide, by decide, by norm_num [distSq],
    distLt_false_of _ _ _ (by norm_num [distSq]),
    distLt_false_of _ _ _ (by norm_num [distSq]),
    distLt_false_of _ _ _ (by norm_num [distSq]),
    distLt_false_of _ _ _ (by norm_num [distSq]), ?_⟩
  apply check_snapping_all_wayid_none
  intro f hf
  simp only [List.mem_cons, List.not_mem_nil, or_false] at hf
  rcases hf with rfl | rfl
  · rfl
  · rfl

/-- C8 amended: with the two centerline features additionally carrying
*different* `way_id`s, each of the two near endpoints' scans reports
exactly one `CENTERLINE_GAP` issue. -/
theorem scenario3_rule (f g : Feature) (tol r : ℚ)
    (hft : normType f = "centerline") (hgt : normType g = "centerline")
    (hw : f.way_id ≠ g.way_id) (hr : 0 < r)
    (hnosnap : ∀ a ∈ endpoints f, ∀ b ∈ endpoints g,
      distLt a b tol = false)
    (A : Pt) (hA : A ∈ endpoints f) (B : Pt) (hB : B ∈ endpoints g)
    (hAB : distSq A B = (r / 2) ^ 2) :
    endpointIssues [f, g] "CENTERLINE_GAP" "magenta" 0 f A tol r =
      [gapIssue f A "CENTERLINE_GAP" "magenta"] ∧
    endpointIssues [f, g] "CENTERLINE_GAP" "magenta" 1 g B tol r =
      [gapIssue g B "CENTERLINE_GAP" "magenta"] := by
  have hhalf : (r / 2) ^ 2 < r ^ 2 := by nlinarith
  have hsA : isSnapped [f, g] 0 A tol = false := by
    rw [Bool.eq_false_iff]
    intro hs
    rw [isSnapped_iff] at hs
    obtain ⟨j, hj, hjne, hd⟩ := hs
    have hj2 : j < 2 := by simpa using hj
    have hj1 : j = 1 := by omega
    subst hj1
    simp only [List.getElem_cons_succ, List.getElem_cons_zero] at hd
    rcases hd with hd | hd
    · rw [hnosnap A hA (firstPt g.geometry) (by simp [endpoints])] at hd
      exact Bool.noConfusion hd
    · rw [hnosnap A hA (lastPt g.geometry) (by simp [endpoints])] at hd
      exact Bool.noConfusion hd
  have hsB : isSnapped [f, g] 1 B tol = false := by
    rw [Bool.eq_false_iff]
    intro hs
    rw [isSnapped_iff] at hs
    obtain ⟨j, hj, hjne, hd⟩ := hs
    have hj2 : j < 2 := by simpa using hj
    have hj0 : j = 0 := by omega
    subst hj0
    simp only [List.getElem_cons_zero] at hd
    rcases hd with hd | hd
    · rw [distLt_comm, hnosnap (firstPt f.geometry) (by simp [endpoints]) B
        hB] at hd
      exact Bool.noConfusion hd
    · rw [distLt_comm, hnosnap (lastPt f.geometry) (by simp [endpoints]) B
        hB] at hd
      exact Bool.noConfusion hd
  have hcA : expectedConnection [f, g] f A r = true := by
    rw [expectedConnection_iff]
    refine ⟨g, by simp, Ne.symm hw, ?_, ?_⟩
    · rw [hft, hgt]
      decide
    · unfold geomDistLt
      have hlt : geomDistSq A g.geometry < r ^ 2 := by
        have hle := geomDistSq_le_endpoint A B g hB
        rw [hAB] at hle
        exact lt_of_le_of_lt hle hhalf
      rw [decide_eq_true (le_of_lt hr), decide_eq_true hlt]
      rfl
  have hcB : expectedConnection [f, g] g B r = true := by
    rw [expectedConnection_iff]
    refine ⟨f, by simp, hw, ?_, ?_⟩
    · rw [hft, hgt]
      decide
    · unfold geomDistLt
      have hlt : geomDistSq B f.geometry < r ^ 2 := by
        have hle := geomDistSq_le_endpoint B A f hA
        rw [distSq_comm B A, hAB] at hle
        exact lt_of_le_of_lt hle hhalf
      rw [decide_eq_true (le_of_lt hr), decide_eq_true hlt]
      rfl
  constructor
  · simp [endpointIssues, hsA, hcA, gapIssue]
  · simp [endpointIssues, hsB, hcB, gapIssue]

/-- Concrete instantiation of `scenario3_rule`: the same two features with
distinct `way_id`s attached are both flagged. -/
theorem scenario3_rule_inst :
    endpointIssues [G1w, G2w] "CENTERLINE_GAP" "magenta" 0 G1w
      ((0 : ℚ), (0 : ℚ)) (1/10) 2 =
      [gapIssue G1w ((0 : ℚ), (0 : ℚ)) "CENTERLINE_GAP" "magenta"] ∧
    endpointIssues [G1w, G2w] "CENTERLINE_GAP" "magenta" 1 G2w
      ((1 : ℚ), (0 : ℚ)) (1/10) 2 =
      [gapIssue G2w ((1 : ℚ), (0 : ℚ)) "CENTERLINE_GAP" "magenta"] :=
  scenario3_rule G1w G2w (1/10) 2 (by decide) (by decide) (by decide)
    (by norm_num)
    (by
      intro a ha b hb
      rw [show endpoints G1w = [((-10 : ℚ), (0 : ℚ)), ((0 : ℚ), (0 : ℚ))]
        from by decide] at ha
      rw [show endpoints G2w = [((1 : ℚ), (0 : ℚ)), ((10 : ℚ), (0 : ℚ))]
        from by decide] at hb
      simp only [List.mem_cons, List.not_mem_nil, or_false] at ha hb
      rcases ha with rfl | rfl <;> rcases hb with rfl | rfl <;>
        exact distLt_false_of _ _ _ (by norm_num [distSq]))
    ((0 : ℚ), (0 : ℚ)) (by decide) ((1 : ℚ), (0 : ℚ)) (by decide)
    (by norm_num [distSq])
